import Mathlib

/-!
Verification of the ZIA intent-resolution and dialogue-coordination engine.

The development shallowly embeds the Python sources:
 * `src/brains/decision_brain.py` — tiered regex intent resolver, context
   boosting, knowledge-base action selection (`DecisionBrain`);
 * `src/vita_x.py` — the dialogue coordinator (`VitaCNS.handle_command`
   and its pending-interrupt handlers);
 * `src/brains/security_brain.py` — trusted/blocked/one-time site lists.

Confidence arithmetic is modelled over `ℚ` (the Python source uses IEEE
floats; all constants and the verified comparisons are exact in `ℚ`).
Python's `re.search` is modelled by a priority-ordered backtracking
matcher over a regex AST; each pattern of the source's pattern bank is
transcribed into that AST.  Python's stable `list.sort(key, reverse=True)`
is modelled by `List.insertionSort` with the reflexive descending
comparison on confidence, which is the unique stable descending sort.
-/

namespace Zia

attribute [local semireducible] Rat.add Rat.mul Rat.inv Rat.sub

/-- Python's `\\s` / `str.strip` whitespace characters (ASCII). -/
def isPyWs (c : Char) : Bool :=
  c = ' ' || c = '\t' || c = '\n' || c = '\r' || c = '\x0b' || c = '\x0c'

/-- `str.lower`, as a structurally recursive map over the characters
(`String.toLower` itself is defined by well-founded recursion, which
concrete runs cannot reduce). -/
def pyLower (s : String) : String := String.mk (s.data.map Char.toLower)

/-- `str.strip`: drop whitespace from both ends. -/
def pyStrip (s : String) : String :=
  String.mk (((s.data.dropWhile fun c => isPyWs c).reverse.dropWhile fun c =>
    isPyWs c).reverse)

/-! ### Regex engine

A small backtracking regex engine covering the constructs used by the
pattern bank of `decision_brain.py`: literals, `.`, character classes,
concatenation, alternation, greedy `*`, and capturing groups.  Greedy
`+`, `?` and `{n,}` are desugared below.  Matching returns the list of
possible (remaining input, captured groups) pairs in backtracking
priority order, so the head of the list is the match Python's `re`
engine commits to. -/

inductive RE where
  | eps
  | chr (c : Char)
  | cls (f : Char → Bool)
  | cat (a b : RE)
  | alt (a b : RE)
  | star (a : RE)
  | grp (a : RE)

namespace RE

/-- Size of a regex term, used to bound the matcher's recursion fuel. -/
def size : RE → Nat
  | .eps => 1
  | .chr _ => 1
  | .cls _ => 1
  | .cat a b => a.size + b.size + 1
  | .alt a b => a.size + b.size + 1
  | .star a => a.size + 1
  | .grp a => a.size + 1

end RE

/-- All ways a regex can match a prefix of `s`, in backtracking priority
order.  Each result is the remaining suffix paired with the list of
captured groups (as character lists, in order of opening parentheses).
`fuel` bounds the recursion depth; `reFuel` below always provides enough
for the patterns and inputs in this development.  The `p.1.length <
s.length` guard inside `star` skips iterations that consume nothing
(none of the source's starred subpatterns can match the empty string, so
the guard never changes the answer; it only ensures totality). -/
def reRuns : Nat → RE → List Char → List (List Char × List (List Char))
  | 0, _, _ => []
  | fuel + 1, e, s =>
    match e with
    | .eps => [(s, [])]
    | .chr c =>
      match s with
      | [] => []
      | d :: t => if d = c then [(t, [])] else []
    | .cls f =>
      match s with
      | [] => []
      | d :: t => if f d then [(t, [])] else []
    | .cat a b =>
      (reRuns fuel a s).flatMap fun p =>
        (reRuns fuel b p.1).map fun q => (q.1, p.2 ++ q.2)
    | .alt a b => reRuns fuel a s ++ reRuns fuel b s
    | .star a =>
      (((reRuns fuel a s).filter fun p => p.1.length < s.length).flatMap fun p =>
        (reRuns fuel (.star a) p.1).map fun q => (q.1, p.2 ++ q.2)) ++ [(s, [])]
    | .grp a =>
      (reRuns fuel a s).map fun p => (p.1, s.take (s.length - p.1.length) :: p.2)

/-- Recursion fuel that always suffices for `reRuns` on `e` and `s`. -/
def reFuel (e : RE) (s : List Char) : Nat :=
  (e.size + 1) * (s.length + 1) + 1

/-- `re.search` from position `i` onwards: try each start position left
to right and commit to the first (highest-priority) match there.
Returns `(start index, matched length, captures)`. -/
def searchFrom (e : RE) : List Char → Nat → Option (Nat × Nat × List (List Char))
  | s, i =>
    match reRuns (reFuel e s) e s with
    | p :: _ => some (i, s.length - p.1.length, p.2)
    | [] =>
      match s with
      | [] => none
      | _ :: t => searchFrom e t (i + 1)

/-- Model of Python's `re.search(e, s)`: leftmost match, backtracking
priority at the match position. -/
def reSearch (e : RE) (s : List Char) : Option (Nat × Nat × List (List Char)) :=
  searchFrom e s 0

/-! #### Pattern combinators used to transcribe the source's patterns -/

/-- `.` — any character except a newline. -/
def anyc : RE := .cls fun c => c ≠ '\n'

/-- Python's `\s` character class. -/
def wsc : RE := .cls isPyWs

/-- Literal string. -/
def lit (s : String) : RE :=
  s.data.foldr (fun c e => RE.cat (.chr c) e) .eps

/-- Greedy `e+` as `e e*`. -/
def plus1 (e : RE) : RE := .cat e (.star e)

/-- Greedy `e?` as `e | ε`. -/
def opt (e : RE) : RE := .alt e .eps

/-- `e{2,}` as `e e e*`. -/
def rep2 (e : RE) : RE := .cat e (.cat e (.star e))

/-- Concatenation of a list of regexes. -/
def cats (l : List RE) : RE := l.foldr .cat .eps

/-- Alternation of a list of literal strings (as in `(a|b|c)`). -/
def altsLit : List String → RE
  | [] => .eps
  | [s] => lit s
  | s :: t => .alt (lit s) (altsLit t)

/-- `.*` -/
def dstar : RE := .star anyc

/-- `(.+)` -/
def grpAnyPlus : RE := .grp (plus1 anyc)

/-- `\s+` -/
def wsPlus : RE := plus1 wsc

/-- `[a-zA-Z]` -/
def alphaC : RE := .cls Char.isAlpha

/-- `[a-zA-Z0-9-]` -/
def alnumDash : RE := .cls fun c => c.isAlpha || c.isDigit || c = '-'

/-- `[^\s]` -/
def nonWs : RE := .cls fun c => !(isPyWs c)

/-! ### Pattern bank

Transcription of `DecisionBrain._setup_intent_patterns`
(`src/brains/decision_brain.py`, lines 126-209).  Each pattern is kept
as a pair of its source text (used as the `matched_pattern` value) and
its regex AST. -/

/-- The three confidence tiers of one intent's patterns. -/
structure PatternGroup where
  high : List (String × RE)
  medium : List (String × RE)
  low : List (String × RE)

def pgFindVideo : PatternGroup where
  high :=
    [("show me.*video.*about\\s+(.+)",
       cats [lit "show me", dstar, lit "video", dstar, lit "about", wsPlus, grpAnyPlus]),
     ("find.*video.*on\\s+(.+)",
       cats [lit "find", dstar, lit "video", dstar, lit "on", wsPlus, grpAnyPlus]),
     ("search.*video.*(.+)",
       cats [lit "search", dstar, lit "video", dstar, grpAnyPlus]),
     ("want.*watch.*video.*(.+)",
       cats [lit "want", dstar, lit "watch", dstar, lit "video", dstar, grpAnyPlus])]
  medium :=
    [("show me.*(.+).*video", cats [lit "show me", dstar, grpAnyPlus, dstar, lit "video"]),
     ("find.*(.+).*video", cats [lit "find", dstar, grpAnyPlus, dstar, lit "video"]),
     ("watch.*(.+)", cats [lit "watch", dstar, grpAnyPlus]),
     ("video.*(.+)", cats [lit "video", dstar, grpAnyPlus])]
  low := [("video", lit "video"), ("watch", lit "watch"), ("show", lit "show")]

def pgPlayMusic : PatternGroup where
  high :=
    [("play.*music.*by\\s+(.+)",
       cats [lit "play", dstar, lit "music", dstar, lit "by", wsPlus, grpAnyPlus]),
     ("listen.*to\\s+(.+).*music",
       cats [lit "listen", dstar, lit "to", wsPlus, grpAnyPlus, dstar, lit "music"]),
     ("put on.*(.+).*music",
       cats [lit "put on", dstar, grpAnyPlus, dstar, lit "music"])]
  medium :=
    [("play.*music", cats [lit "play", dstar, lit "music"]),
     ("listen.*music", cats [lit "listen", dstar, lit "music"]),
     ("some.*music", cats [lit "some", dstar, lit "music"])]
  low := [("music", lit "music"), ("song", lit "song"), ("play", lit "play")]

def pgGetInfo : PatternGroup where
  high :=
    [("what.*is\\s+(.+)", cats [lit "what", dstar, lit "is", wsPlus, grpAnyPlus]),
     ("tell me.*about\\s+(.+)", cats [lit "tell me", dstar, lit "about", wsPlus, grpAnyPlus]),
     ("search.*for\\s+(.+)", cats [lit "search", dstar, lit "for", wsPlus, grpAnyPlus]),
     ("explain\\s+(.+)", cats [lit "explain", wsPlus, grpAnyPlus])]
  medium :=
    [("what.*(.+)", cats [lit "what", dstar, grpAnyPlus]),
     ("about.*(.+)", cats [lit "about", dstar, grpAnyPlus]),
     ("info.*(.+)", cats [lit "info", dstar, grpAnyPlus])]
  low := [("what", lit "what"), ("info", lit "info"), ("tell", lit "tell")]

def pgOpenWebsite : PatternGroup where
  high :=
    [("open\\s+(https?://[^\\s]+)",
       cats [lit "open", wsPlus,
             .grp (cats [lit "http", opt (.chr 's'), lit "://", plus1 nonWs])]),
     ("go to\\s+(www\\.[^\\s]+)",
       cats [lit "go to", wsPlus, .grp (cats [lit "www.", plus1 nonWs])])]
  medium :=
    [("open\\s+([a-zA-Z0-9-]+\\.[a-zA-Z]\x7b2,\x7d)",
       cats [lit "open", wsPlus, .grp (cats [plus1 alnumDash, .chr '.', rep2 alphaC])]),
     ("go to\\s+([a-zA-Z0-9-]+\\.[a-zA-Z]\x7b2,\x7d)",
       cats [lit "go to", wsPlus, .grp (cats [plus1 alnumDash, .chr '.', rep2 alphaC])])]
  low :=
    [("open.*\\.com", cats [lit "open", dstar, lit ".com"]),
     ("website", lit "website")]

def pgSystemCheck : PatternGroup where
  high :=
    [("system.*status", cats [lit "system", dstar, lit "status"]),
     ("check.*system.*performance",
       cats [lit "check", dstar, lit "system", dstar, lit "performance"]),
     ("performance.*report", cats [lit "performance", dstar, lit "report"])]
  medium :=
    [("check.*system", cats [lit "check", dstar, lit "system"]),
     ("system.*info", cats [lit "system", dstar, lit "info"]),
     ("performance", lit "performance")]
  low := [("system", lit "system"), ("status", lit "status"), ("check", lit "check")]

def pgLaunchApp : PatternGroup where
  high :=
    [("open\\s+(notepad|calculator|paint|word|excel)",
       cats [lit "open", wsPlus,
             .grp (altsLit ["notepad", "calculator", "paint", "word", "excel"])]),
     ("launch\\s+(notepad|calculator|paint)",
       cats [lit "launch", wsPlus, .grp (altsLit ["notepad", "calculator", "paint"])])]
  medium :=
    [("open\\s+([a-zA-Z]+)", cats [lit "open", wsPlus, .grp (plus1 alphaC)]),
     ("launch\\s+([a-zA-Z]+)", cats [lit "launch", wsPlus, .grp (plus1 alphaC)])]
  low := [("open", lit "open"), ("launch", lit "launch"), ("start", lit "start")]

def pgSearchWeb : PatternGroup where
  high :=
    [("google.*for\\s+(.+)", cats [lit "google", dstar, lit "for", wsPlus, grpAnyPlus]),
     ("search.*google.*(.+)", cats [lit "search", dstar, lit "google", dstar, grpAnyPlus]),
     ("look up.*(.+).*online", cats [lit "look up", dstar, grpAnyPlus, dstar, lit "online"])]
  medium :=
    [("google.*(.+)", cats [lit "google", dstar, grpAnyPlus]),
     ("search.*(.+)", cats [lit "search", dstar, grpAnyPlus]),
     ("look up.*(.+)", cats [lit "look up", dstar, grpAnyPlus])]
  low := [("google", lit "google"), ("search", lit "search")]

def pgEntertainment : PatternGroup where
  high :=
    [("entertain.*me", cats [lit "entertain", dstar, lit "me"]),
     ("something.*fun.*to.*do",
       cats [lit "something", dstar, lit "fun", dstar, lit "to", dstar, lit "do"]),
     ("i.*am.*bored", cats [lit "i", dstar, lit "am", dstar, lit "bored"])]
  medium :=
    [("something.*fun", cats [lit "something", dstar, lit "fun"]),
     ("bored", lit "bored"),
     ("entertainment", lit "entertainment")]
  low := [("fun", lit "fun"), ("entertain", lit "entertain")]

def pgWorkTask : PatternGroup where
  high :=
    [("need.*help.*with.*work",
       cats [lit "need", dstar, lit "help", dstar, lit "with", dstar, lit "work"]),
     ("work.*related.*task", cats [lit "work", dstar, lit "related", dstar, lit "task"])]
  medium :=
    [("work.*task", cats [lit "work", dstar, lit "task"]),
     ("office.*task", cats [lit "office", dstar, lit "task"]),
     ("document.*work", cats [lit "document", dstar, lit "work"])]
  low := [("work", lit "work"), ("office", lit "office")]

def pgFileManagement : PatternGroup where
  high :=
    [("find.*file.*named\\s+(.+)",
       cats [lit "find", dstar, lit "file", dstar, lit "named", wsPlus, grpAnyPlus]),
     ("open.*folder.*(.+)", cats [lit "open", dstar, lit "folder", dstar, grpAnyPlus])]
  medium :=
    [("find.*file", cats [lit "find", dstar, lit "file"]),
     ("open.*folder", cats [lit "open", dstar, lit "folder"]),
     ("browse.*files", cats [lit "browse", dstar, lit "files"])]
  low := [("file", lit "file"), ("folder", lit "folder"), ("explorer", lit "explorer")]

def pgNewsUpdate : PatternGroup where
  high :=
    [("latest.*news.*about\\s+(.+)",
       cats [lit "latest", dstar, lit "news", dstar, lit "about", wsPlus, grpAnyPlus]),
     ("news.*today.*(.+)", cats [lit "news", dstar, lit "today", dstar, grpAnyPlus])]
  medium :=
    [("latest.*news", cats [lit "latest", dstar, lit "news"]),
     ("news.*today", cats [lit "news", dstar, lit "today"]),
     ("current.*events", cats [lit "current", dstar, lit "events"])]
  low := [("news", lit "news"), ("events", lit "events")]

def pgSocialMedia : PatternGroup where
  high :=
    [("open\\s+(facebook|twitter|instagram|linkedin|tiktok)",
       cats [lit "open", wsPlus,
             .grp (altsLit ["facebook", "twitter", "instagram", "linkedin", "tiktok"])]),
     ("check\\s+(facebook|twitter|instagram)",
       cats [lit "check", wsPlus, .grp (altsLit ["facebook", "twitter", "instagram"])])]
  medium :=
    [("social.*media", cats [lit "social", dstar, lit "media"]),
     ("check.*social", cats [lit "check", dstar, lit "social"])]
  low := [("social", lit "social"), ("facebook", lit "facebook"), ("twitter", lit "twitter")]

def pgLearning : PatternGroup where
  high :=
    [("learn.*about\\s+(.+)", cats [lit "learn", dstar, lit "about", wsPlus, grpAnyPlus]),
     ("tutorial.*on\\s+(.+)", cats [lit "tutorial", dstar, lit "on", wsPlus, grpAnyPlus]),
     ("teach.*me\\s+(.+)", cats [lit "teach", dstar, lit "me", wsPlus, grpAnyPlus])]
  medium :=
    [("learn.*(.+)", cats [lit "learn", dstar, grpAnyPlus]),
     ("tutorial.*(.+)", cats [lit "tutorial", dstar, grpAnyPlus]),
     ("how.*to.*(.+)", cats [lit "how", dstar, lit "to", dstar, grpAnyPlus])]
  low := [("learn", lit "learn"), ("tutorial", lit "tutorial"), ("teach", lit "teach")]

def pgProductivity : PatternGroup where
  high :=
    [("schedule.*appointment.*(.+)",
       cats [lit "schedule", dstar, lit "appointment", dstar, grpAnyPlus]),
     ("reminder.*for\\s+(.+)", cats [lit "reminder", dstar, lit "for", wsPlus, grpAnyPlus]),
     ("organize.*(.+)", cats [lit "organize", dstar, grpAnyPlus])]
  medium :=
    [("schedule.*(.+)", cats [lit "schedule", dstar, grpAnyPlus]),
     ("calendar.*(.+)", cats [lit "calendar", dstar, grpAnyPlus]),
     ("reminder.*(.+)", cats [lit "reminder", dstar, grpAnyPlus])]
  low := [("schedule", lit "schedule"), ("calendar", lit "calendar"),
          ("reminder", lit "reminder")]

def pgCommunication : PatternGroup where
  high :=
    [("send.*email.*to\\s+(.+)",
       cats [lit "send", dstar, lit "email", dstar, lit "to", wsPlus, grpAnyPlus]),
     ("call\\s+(.+)", cats [lit "call", wsPlus, grpAnyPlus]),
     ("message\\s+(.+)", cats [lit "message", wsPlus, grpAnyPlus])]
  medium :=
    [("send.*email", cats [lit "send", dstar, lit "email"]),
     ("make.*call", cats [lit "make", dstar, lit "call"]),
     ("send.*message", cats [lit "send", dstar, lit "message"])]
  low := [("email", lit "email"), ("call", lit "call"), ("message", lit "message")]

def pgShopping : PatternGroup where
  high :=
    [("buy\\s+(.+)", cats [lit "buy", wsPlus, grpAnyPlus]),
     ("shop.*for\\s+(.+)", cats [lit "shop", dstar, lit "for", wsPlus, grpAnyPlus]),
     ("purchase\\s+(.+)", cats [lit "purchase", wsPlus, grpAnyPlus])]
  medium :=
    [("shopping.*(.+)", cats [lit "shopping", dstar, grpAnyPlus]),
     ("buy.*(.+)", cats [lit "buy", dstar, grpAnyPlus]),
     ("price.*(.+)", cats [lit "price", dstar, grpAnyPlus])]
  low := [("buy", lit "buy"), ("shop", lit "shop"), ("purchase", lit "purchase")]

/-- `self.intent_patterns`, in the source's (insertion) iteration order. -/
def intentPatterns : List (String × PatternGroup) :=
  [("find_video", pgFindVideo),
   ("play_music", pgPlayMusic),
   ("get_info", pgGetInfo),
   ("open_website", pgOpenWebsite),
   ("system_check", pgSystemCheck),
   ("launch_app", pgLaunchApp),
   ("search_web", pgSearchWeb),
   ("entertainment", pgEntertainment),
   ("work_task", pgWorkTask),
   ("file_management", pgFileManagement),
   ("news_update", pgNewsUpdate),
   ("social_media", pgSocialMedia),
   ("learning", pgLearning),
   ("productivity", pgProductivity),
   ("communication", pgCommunication),
   ("shopping", pgShopping)]

/-! ### Intent resolver

`DecisionBrain._determine_intent_with_confidence` (lines 264-301) and
`DecisionBrain._apply_context_boosting` (lines 317-335).

The generic entity extractors (time/date/person/location, lines
211-218/309-315) are not modelled: they only add extra keys to the
entity dictionary and never influence intent choice, confidence, or the
parameters that the automation mapping reads; only the primary entity
(the first capturing group) is kept. -/

/-- Python's binary `min`, kept as a plain conditional so that concrete
runs of the embedded code reduce inside the kernel. -/
def pymin (a b : ℚ) : ℚ := if a ≤ b then a else b

theorem pymin_eq_min (a b : ℚ) : pymin a b = min a b := (min_def a b).symm

/-- An intent match, mirroring the `IntentMatch` dataclass.  Confidence
is exact rational arithmetic; `primaryEntity` is the stripped first
capturing group of the winning pattern, when the pattern has one. -/
structure IntentMatch where
  intent : String
  confidence : ℚ
  matchedPattern : String
  primaryEntity : Option String
deriving DecidableEq, Repr

/-- Score one pattern against the lower-cased trimmed utterance `u`
(lines 277-283): on a structural match, the tier's base confidence,
plus `0.1` if the match spans the whole utterance, plus `0.1` times the
matched-span/utterance length ratio; `none` if the pattern does not
match. Also returns the captures of the match. -/
def patternScore (base : ℚ) (u : List Char) (e : RE) : Option (ℚ × List (List Char)) :=
  match reSearch e u with
  | none => none
  | some (i, len, caps) =>
    let withFull : ℚ := base + (if i = 0 ∧ len = u.length then 1/10 else 0)
    some (withFull + ((len : ℚ) / (u.length : ℚ)) * (1/10), caps)

/-- The `(base confidence, patterns)` tiers in evaluation order
(line 274). -/
def tiersOf (pg : PatternGroup) : List (ℚ × List (String × RE)) :=
  [(9/10, pg.high), (6/10, pg.medium), (3/10, pg.low)]

/-- The tier/pattern pairs of one intent flattened in the iteration
order of the source's two nested loops (lines 274-277): all high-tier
patterns, then medium, then low, each tagged with its base confidence. -/
def allPats (pg : PatternGroup) : List (ℚ × String × RE) :=
  (tiersOf pg).flatMap fun bp => bp.2.map fun pe => (bp.1, pe.1, pe.2)

/-- Loop state `(best_confidence, best_pattern, best_entities)`. -/
structure BestSoFar where
  conf : ℚ
  pat : String
  caps : List (List Char)
deriving DecidableEq

/-- One step of the per-intent loop (lines 277-290): a matching pattern
replaces the best seen so far only when its score is strictly greater. -/
def bestStep (u : List Char) (acc : BestSoFar) (p : ℚ × String × RE) : BestSoFar :=
  match patternScore p.1 u p.2.2 with
  | none => acc
  | some (pc, caps) => if pc > acc.conf then ⟨pc, p.2.1, caps⟩ else acc

/-- The per-intent loop of `_determine_intent_with_confidence`:
fold `bestStep` over the flattened tier/pattern pairs, starting from
`best_confidence = 0`, `best_pattern = ""`, no entities. -/
def bestForIntent (pg : PatternGroup) (u : List Char) : BestSoFar :=
  (allPats pg).foldl (bestStep u) ⟨0, "", []⟩

/-- Descending-by-confidence comparison used to model Python's stable
`list.sort(key=lambda x: x.confidence, reverse=True)`.  Any stable sort
for this key produces the same list, so `List.insertionSort` with this
relation is an exact model. -/
def confGE (a b : IntentMatch) : Prop := b.confidence ≤ a.confidence

instance : DecidableRel confGE := fun a b =>
  inferInstanceAs (Decidable (b.confidence ≤ a.confidence))

instance : IsTotal IntentMatch confGE := ⟨fun a b => le_total b.confidence a.confidence⟩

instance : IsTrans IntentMatch confGE :=
  ⟨fun _ _ _ h h' => le_trans h' h⟩

/-- The `IntentMatch` one intent contributes for utterance `u`
(lines 292-298): present exactly when its best score is positive, with
confidence capped at `1`, the winning pattern, and the stripped first
capture as the primary entity. -/
def rawEntry (u : List Char) (ip : String × PatternGroup) : Option IntentMatch :=
  let b := bestForIntent ip.2 u
  if b.conf > 0 then
    some ⟨ip.1, pymin b.conf 1, b.pat,
          b.caps.head?.map fun g => pyStrip (String.mk g)⟩
  else none

/-- The sorted match list built by `_determine_intent_with_confidence`
before context boosting (lines 266-300): for each intent in bank order,
keep it iff its best score is positive, then stable-sort descending by
confidence. -/
def determineIntentRaw (command : String) : List IntentMatch :=
  (intentPatterns.filterMap (rawEntry (pyStrip (pyLower command)).data)).insertionSort confGE

/-- Session context: `self.session_context` (line 223).  `lastIntent`
models the `last_intent` entry (`none` for Python's falsy `None`), and
`timeOfDay` the `time_of_day` entry. -/
structure SessionContext where
  lastIntent : Option String
  timeOfDay : String

/-- The `time_boosts` table of `_apply_context_boosting`
(lines 325-329); `dict.get` with default `[]` for other buckets. -/
def timeBoosts (t : String) : List String :=
  if t = "morning" then ["news_update", "productivity"]
  else if t = "evening" then ["entertainment", "find_video"]
  else if t = "night" then ["entertainment", "play_music"]
  else []

/-- Per-match confidence adjustment of `_apply_context_boosting`
(lines 319-332): `+0.1` capped at `1` when the intent equals the
session's last intent, then `+0.05` capped at `1` when the intent is in
the current time bucket's boost list.  The two loops of the source are
independent per element, so their composition is this single map. -/
def boostMatch (ctx : SessionContext) (m : IntentMatch) : IntentMatch :=
  let c1 :=
    if ctx.lastIntent.isSome ∧ ctx.lastIntent = some m.intent then
      pymin 1 (m.confidence + 1/10)
    else m.confidence
  let c2 :=
    if m.intent ∈ timeBoosts ctx.timeOfDay then pymin 1 (c1 + 1/20) else c1
  { m with confidence := c2 }

/-- `_apply_context_boosting` (lines 317-335).  The source adjusts the
confidence of each `IntentMatch` object in place, sorts the list it was
handed in place, and returns that same list; so this value is both the
returned list and the contents the caller's list aliases after the
call. -/
def applyContextBoosting (ctx : SessionContext) (l : List IntentMatch) : List IntentMatch :=
  (l.map (boostMatch ctx)).insertionSort confGE

/-- The full resolver: raw tiered matching followed by context boosting
(line 301). -/
def determineIntent (ctx : SessionContext) (command : String) : List IntentMatch :=
  applyContextBoosting ctx (determineIntentRaw command)

/-! ### Knowledge base and action selection

`DecisionBrain._setup_knowledge_base` (lines 90-124),
`_select_best_action` (lines 461-477), `_learn_from_interaction`
(lines 487-494) and the decision logic of `make_decision`
(lines 396-460). -/

/-- One knowledge-base entry.  Every entry of the source's table
defines all four keys, so the `dict.get` fallbacks never fire. -/
structure KBEntry where
  actions : List String
  priority : List String
  contextSensitive : Bool
  requiresTopic : Bool
deriving DecidableEq, Repr

/-- `self.knowledge_base` (lines 92-124). -/
def knowledgeBase : List (String × KBEntry) :=
  [("find_video", ⟨["search_youtube", "check_local_videos"], ["search_youtube"], true, true⟩),
   ("play_music", ⟨["open_spotify", "search_youtube_music"], ["open_spotify"], true, false⟩),
   ("entertainment",
     ⟨["search_youtube", "open_netflix", "open_spotify"], ["search_youtube"], true, false⟩),
   ("get_info", ⟨["search_google", "search_wikipedia"], ["search_google"], true, true⟩),
   ("search_web", ⟨["search_google", "search_bing"], ["search_google"], false, true⟩),
   ("news_update",
     ⟨["search_google_news", "open_news_website"], ["search_google_news"], true, false⟩),
   ("open_website", ⟨["open_website"], ["open_website"], false, true⟩),
   ("social_media",
     ⟨["open_facebook", "open_twitter", "open_instagram"], ["open_facebook"], true, false⟩),
   ("system_check",
     ⟨["get_system_status", "check_performance"], ["get_system_status"], false, false⟩),
   ("launch_app", ⟨["open_application"], ["open_application"], false, true⟩),
   ("work_task", ⟨["open_notepad", "open_calculator"], ["open_notepad"], true, false⟩),
   ("file_management", ⟨["open_explorer", "search_files"], ["open_explorer"], true, false⟩),
   ("productivity", ⟨["open_calendar", "create_reminder"], ["open_calendar"], true, false⟩),
   ("learning",
     ⟨["search_educational_content", "find_tutorials"], ["search_educational_content"], true, true⟩),
   ("communication", ⟨["open_email", "open_messaging"], ["open_email"], true, false⟩),
   ("shopping", ⟨["search_products", "open_shopping_site"], ["search_products"], true, true⟩)]

/-- `self.knowledge_base.get(intent)`. -/
def kbFind (intent : String) : Option KBEntry :=
  (knowledgeBase.find? fun e => e.1 = intent).map Prod.snd

/-- The per-intent preference counters `self.user_preferences`:
for each intent, an insertion-ordered association list of
(recorded entry, occurrence count), mirroring a Python `Counter`. -/
def Prefs := List (String × List (String × Nat))

/-- `self.user_preferences[intent]` (a missing intent gives the empty
counter, as `defaultdict(Counter)` does). -/
def prefsFor (prefs : Prefs) (intent : String) : List (String × Nat) :=
  ((List.find? (fun e => e.1 = intent) prefs).map Prod.snd).getD []

/-- `Counter.most_common(1)[0][0]`: the first key, in insertion order,
whose count is maximal (CPython's `most_common` is equivalent to a
stable descending sort by count).  `none` on an empty counter. -/
def mostCommon1 : List (String × Nat) → Option String
  | [] => none
  | kc :: t => some (t.foldl (fun acc p => if p.2 > acc.2 then p else acc) kc).1

/-- `_select_best_action` (lines 461-477): start from the head of the
entry's priority list, then override with the user's most frequent
recorded entry for this intent when that entry is one of the possible
actions.  (Every knowledge-base entry has a nonempty `priority`, so
`priority_actions[0]` is modelled by `headD`.) -/
def selectBestAction (intent : String) (prefs : Prefs) (entry : KBEntry) : String :=
  let best := entry.priority.headD ""
  match prefsFor prefs intent with
  | [] => best
  | kc :: t =>
    match mostCommon1 (kc :: t) with
    | some mc => if mc ∈ entry.actions then mc else best
    | none => best

/-- Lookup in the parameters association list with a default,
modelling `parameters.get(key, default)`. -/
def paramGet (ps : List (String × String)) (k dflt : String) : String :=
  ((ps.find? fun e => e.1 = k).map Prod.snd).getD dflt

/-- `_extract_enhanced_parameters` (lines 336-353): copy the extracted
entities and remap the primary entity to a per-intent-family key. -/
def extractEnhancedParameters (m : IntentMatch) : List (String × String) :=
  match m.primaryEntity with
  | none => []
  | some v =>
    if m.intent ∈ ["find_video", "get_info", "search_web", "learning"] then
      [("primary_entity", v), ("topic", v)]
    else if m.intent = "play_music" then [("primary_entity", v), ("music_query", v)]
    else if m.intent = "open_website" then [("primary_entity", v), ("url", v)]
    else if m.intent = "launch_app" then [("primary_entity", v), ("application", v)]
    else [("primary_entity", v)]

/-- `_create_enhanced_clarification` (lines 355-370). -/
def createEnhancedClarification (intent : String) (possible : List String)
    (ps : List (String × String)) : String :=
  if intent = "find_video" then
    "CLARIFY:I can search YouTube for '" ++ paramGet ps "topic" "videos" ++
      "' or check your local files. Which one, Boss?"
  else if intent = "play_music" then
    "CLARIFY:I can play '" ++ paramGet ps "music_query" "music" ++
      "' on Spotify or YouTube Music. What's your preference?"
  else
    "CLARIFY:I have a few options for that: " ++
      String.intercalate ", " ((possible.take 3).map fun a => a.replace "_" " ") ++
      ". Which should I use, Boss?"

/-- `_map_action_to_automation_enhanced` (lines 371-394), restricted to
the `automation_command` it produces. -/
def mapActionToAutomation (action : String) (ps : List (String × String)) : String :=
  if action = "search_youtube" then "search youtube for " ++ paramGet ps "topic" "videos"
  else if action = "search_youtube_music" then
    "search youtube for " ++ paramGet ps "music_query" "music" ++ " music"
  else if action = "open_spotify" then "open spotify.com"
  else if action = "search_google" then "search for " ++ paramGet ps "topic" "information"
  else if action = "open_website" then "open " ++ paramGet ps "url" "google.com"
  else if action = "open_application" then "open " ++ paramGet ps "application" "notepad"
  else action

/-- The `DecisionResult` dataclass (lines 25-37); `execution_time` and
the unused `parameters=None` default are not tracked. -/
structure DecisionResult where
  success : Bool
  action : Option String := none
  automationCommand : Option String := none
  parameters : List (String × String) := []
  confidence : ℚ := 0
  intent : Option String := none
  clarificationNeeded : Bool := false
  clarificationMessage : Option String := none
  alternatives : Option (List String) := none
deriving DecidableEq, Repr

/-- Decision-brain configuration (lines 66-67); the defaults are
`confidence_threshold = 0.7` and `max_alternatives = 3`. -/
structure DecisionConfig where
  confidenceThreshold : ℚ := 7/10
  maxAlternatives : Nat := 3

/-- Outcome of the action-determination step of `make_decision`
(lines 426-441). -/
inductive ActionChoice where
  | act (a : String)
  | clarify (msg : String) (alts : List String)
  | noAction
deriving DecidableEq, Repr

/-- The action-determination step of `make_decision` (lines 426-441):
look up the intent's knowledge-base entry (`.get` giving no actions for
an unknown intent); no actions means no decision; with the single
action or, for several actions, the context-sensitive best action the
step commits to an action; several actions without context sensitivity
produce a clarification listing all possible actions. -/
def decideAction (prefs : Prefs) (intent : String)
    (params : List (String × String)) : ActionChoice :=
  match kbFind intent with
  | none => .noAction
  | some entry =>
    match entry.actions with
    | [] => .noAction
    | a0 :: rest =>
      if rest = [] then .act a0
      else if entry.contextSensitive then .act (selectBestAction intent prefs entry)
      else .clarify (createEnhancedClarification intent entry.actions params) entry.actions

/-- `make_decision` (lines 396-460), as a function of the session
context and learning store it reads; `none` models returning Python
`None` (no intent matches, or an entry with no actions).  The updates
to performance statistics, conversation history and the learning store
on success are not modelled; no claim refers to them. -/
def makeDecision (cfg : DecisionConfig) (ctx : SessionContext) (prefs : Prefs)
    (command : String) : Option DecisionResult :=
  if pyStrip command = "" then
    some { success := false,
           clarificationMessage := some "Boss, I need a command to process." }
  else
    match determineIntent ctx command with
    | [] => none
    | best :: rest =>
      if best.confidence < cfg.confidenceThreshold then
        let alternatives := ((best :: rest).take cfg.maxAlternatives).map
          IntentMatch.intent
        some { success := false, intent := some best.intent,
               confidence := best.confidence, clarificationNeeded := true,
               clarificationMessage := some
                 ("CLARIFY:I'm not entirely sure, Boss. Did you mean: " ++
                   String.intercalate ", " alternatives ++ "?"),
               alternatives := some alternatives }
      else
        let params := extractEnhancedParameters best
        match decideAction prefs best.intent params with
        | .noAction => none
        | .clarify msg alts =>
          some { success := false, intent := some best.intent,
                 confidence := best.confidence, clarificationNeeded := true,
                 clarificationMessage := some msg, alternatives := some alts }
        | .act a =>
          some { success := true, action := some a,
                 automationCommand := some (mapActionToAutomation a params),
                 parameters := params, confidence := best.confidence,
                 intent := some best.intent }

/-! ### Security brain

`SecurityBrain` of `src/brains/security_brain.py`.  The site lists are
Python sets of domain strings, modelled as `Finset String`.  Domain
normalisation (`extract_domain`, built on `urllib.parse.urlparse`) and
domain validation (`is_valid_domain`) are kept abstract: every theorem
below quantifies over an arbitrary normaliser `norm` and validator
`valid`, so it holds in particular for the source's concrete ones. -/

/-- The three site lists owned by `SecurityBrain`. -/
structure SecLists where
  trusted : Finset String
  blocked : Finset String
  oneTime : Finset String
deriving DecidableEq

/-- `SecurityBrain.add_to_trusted` (lines 151-180): normalise, reject
invalid domains without touching anything, otherwise discard from the
blocked and one-time lists and add to the trusted list. -/
def addToTrusted (norm : String → String) (valid : String → Bool)
    (sec : SecLists) (domain : String) : SecLists :=
  let clean := norm domain
  if valid clean then
    { trusted := insert clean sec.trusted,
      blocked := sec.blocked.erase clean,
      oneTime := sec.oneTime.erase clean }
  else sec

/-- `SecurityBrain.add_to_blocked` (lines 182-211): normalise, reject
invalid domains, otherwise discard from the trusted and one-time lists
and add to the blocked list. -/
def addToBlocked (norm : String → String) (valid : String → Bool)
    (sec : SecLists) (domain : String) : SecLists :=
  let clean := norm domain
  if valid clean then
    { trusted := sec.trusted.erase clean,
      blocked := insert clean sec.blocked,
      oneTime := sec.oneTime.erase clean }
  else sec

/-- `SecurityBrain.add_to_one_time` (lines 213-239): one-time access is
temporary, so the domain is deliberately not removed from the trusted
or blocked lists. -/
def addToOneTime (norm : String → String) (valid : String → Bool)
    (sec : SecLists) (domain : String) : SecLists :=
  let clean := norm domain
  if valid clean then { sec with oneTime := insert clean sec.oneTime }
  else sec

/-- `SecurityBrain.remove_from_trusted` (lines 241-249). -/
def removeFromTrusted (norm : String → String) (sec : SecLists) (domain : String) : SecLists :=
  { sec with trusted := sec.trusted.erase (norm domain) }

/-- `SecurityBrain.remove_from_blocked` (lines 251-259). -/
def removeFromBlocked (norm : String → String) (sec : SecLists) (domain : String) : SecLists :=
  { sec with blocked := sec.blocked.erase (norm domain) }

/-- `SecurityBrain.clear_one_time_sessions` (lines 261-273). -/
def clearOneTime (sec : SecLists) : SecLists :=
  { sec with oneTime := ∅ }

/-- The security-list operations of `SecurityBrain`, for reasoning
about arbitrary call sequences. -/
inductive SecOp where
  | addTrusted (d : String)
  | addBlocked (d : String)
  | addOneTime (d : String)
  | remTrusted (d : String)
  | remBlocked (d : String)
  | clearOnce

/-- Apply one security-list operation. -/
def applySecOp (norm : String → String) (valid : String → Bool)
    (sec : SecLists) : SecOp → SecLists
  | .addTrusted d => addToTrusted norm valid sec d
  | .addBlocked d => addToBlocked norm valid sec d
  | .addOneTime d => addToOneTime norm valid sec d
  | .remTrusted d => removeFromTrusted norm sec d
  | .remBlocked d => removeFromBlocked norm sec d
  | .clearOnce => clearOneTime sec

/-- Apply a sequence of security-list operations in order. -/
def applySecOps (norm : String → String) (valid : String → Bool)
    (sec : SecLists) (ops : List SecOp) : SecLists :=
  ops.foldl (applySecOp norm valid) sec

/-! ### Dialogue coordinator

`VitaCNS` of `src/vita_x.py`: `handle_command` (lines 229-274),
`_process_command_enhanced` (lines 276-311), `_handle_security_question`
(lines 312-318), `_handle_decision_clarification` (lines 320-341) and
`_handle_security_response` (lines 343-375).

Brain collaborators are oracles carried in an `Env`: each call may
return a value or raise (`Except Unit`), matching the source's
per-brain `try`/`except` blocks; an absent brain (`None` attribute) is
an absent oracle.  Logging, performance statistics and the memory
brain's fire-and-forget `log_action` are not modelled.  The state a
command handler touches is the pair of pending interrupts plus the
security brain's lists; calls to `_open_website` and to the security
brain's list mutators are additionally recorded as an event trace. -/

/-- The `pending_security_question` dictionary (line 315). -/
structure SecurityQuestion where
  question : String
  url : String
  originalCommand : String
deriving DecidableEq, Repr

/-- The `pending_decision_clarification` dictionary (line 291). -/
structure ClarificationCtx where
  originalCommand : String
  decisionResult : DecisionResult
deriving DecidableEq, Repr

/-- The coordinator state a command can read or write. -/
structure CNSState where
  pendingSecurityQuestion : Option SecurityQuestion
  pendingDecisionClarification : Option ClarificationCtx
  sec : SecLists
deriving DecidableEq

/-- Observable collaborator calls recorded while handling a command. -/
inductive Event where
  | openWebsite (url : String)
  | addTrustedCall (d : String)
  | addBlockedCall (d : String)
  | addOneTimeCall (d : String)
deriving DecidableEq, Repr

/-- The `CommandResult` dataclass of `vita_x.py` (lines 32-41), without
the timing and metadata fields.  `response` is optional because the
source can propagate a `None` automation response into it. -/
structure CommandResult where
  success : Bool
  response : Option String
  sourceBrain : String
  requiresClarification : Bool := false
  clarificationMessage : Option String := none
deriving DecidableEq, Repr

/-- Brain collaborators as oracles.  `decisionBrain` bundles
`make_decision` and `handle_clarification_response` (one Python object
provides both).  A `.error` result models the call raising; `.ok none`
models it returning Python `None` (for the automation and response
brains, any falsy response). -/
structure Env where
  decisionBrain : Option ((String → Except Unit (Option DecisionResult)) ×
    (String → String → Except Unit (Option DecisionResult)))
  responseBrain : Option (String → Except Unit (Option String))
  automationBrain : Option (String → Except Unit (Option String))
  securityBrain : Bool
  norm : String → String
  valid : String → Bool
  fallbackNetloc : String → String

/-- Truthiness of a Python string-or-`None` value. -/
def strTruthy : Option String → Bool
  | none => false
  | some s => s ≠ ""

/-- Substring containment, modelling Python's `sub in word` for a
nonempty `sub`. -/
def containsSub (word sub : String) : Bool :=
  (word.splitOn sub).length ≥ 2

/-- `VitaCNS._extract_url_from_original_command` (lines 377-386):
try the three URL regexes in order, then fall back to the first word
containing a known extension, then to the whole command. -/
def extractUrlFromCommand (command : String) : String :=
  let pats : List RE :=
    [cats [lit "http", opt (.chr 's'), lit "://", plus1 nonWs],
     cats [lit "www.", plus1 nonWs],
     cats [plus1 alnumDash, .chr '.', rep2 alphaC, .star nonWs]]
  let s := command.data
  match pats.findSome? fun e =>
    (reSearch e s).map fun r => String.mk ((s.drop r.1).take r.2.1) with
  | some u => u
  | none =>
    let exts := [".com", ".org", ".net", ".io", ".in", ".edu", ".gov"]
    match (command.splitOn " ").filter (fun w => w ≠ "") |>.find? fun w =>
        exts.any fun ext => containsSub w ext with
    | some w => w
    | none => command

/-- `VitaCNS._handle_security_question` (lines 312-318): extract a URL
from the original command, store the pending security question and
answer with a clarification request. -/
def handleSecurityQuestion (securityResponse originalCommand : String)
    (s : CNSState) : CommandResult × CNSState × List Event :=
  let url := extractUrlFromCommand originalCommand
  let sq : SecurityQuestion := ⟨securityResponse, url, originalCommand⟩
  ({ success := false, response := some "", sourceBrain := "SecurityBrain",
     requiresClarification := true,
     clarificationMessage := some ((securityResponse.replace "ASK_USER:" "").trim) },
   { s with pendingSecurityQuestion := some sq }, [])

/-- The `ResponseBrain`/`AutomationBrain`/fallback tail of
`_process_command_enhanced` (lines 295-311), reached whenever the
decision-brain section falls through. -/
def responseSection (env : Env) (s : CNSState) (command : String) :
    CommandResult × CNSState × List Event :=
  let fallback : CommandResult × CNSState × List Event :=
    ({ success := false,
       response := some "I'm not sure how to help with that, Boss. Could you try rephrasing your request?",
       sourceBrain := "CNS_Fallback" }, s, [])
  let autoSection : CommandResult × CNSState × List Event :=
    match env.automationBrain with
    | none => fallback
    | some ab =>
      match ab command with
      | .error _ => fallback
      | .ok r =>
        if strTruthy r then
          if (r.getD "").startsWith "ASK_USER:" then
            handleSecurityQuestion (r.getD "") command s
          else
            ({ success := true, response := r, sourceBrain := "AutomationBrain" }, s, [])
        else fallback
  match env.responseBrain with
  | none => autoSection
  | some rb =>
    match rb command with
    | .error _ => autoSection
    | .ok r =>
      if strTruthy r then
        ({ success := true, response := r, sourceBrain := "ResponseBrain" }, s, [])
      else autoSection

/-- `_process_command_enhanced` (lines 276-311): the decision-brain
section, falling through to `responseSection` when the decision brain
is absent, raises, returns `None`, returns a success without an
automation command or automation brain, or returns a plain failure. -/
def processCommandEnhanced (env : Env) (s : CNSState) (command : String) :
    CommandResult × CNSState × List Event :=
  match env.decisionBrain with
  | none => responseSection env s command
  | some db =>
    match db.1 command with
    | .error _ => responseSection env s command
    | .ok none => responseSection env s command
    | .ok (some dr) =>
      if dr.success ∧ strTruthy dr.automationCommand then
        match env.automationBrain with
        | none => responseSection env s command
        | some ab =>
          match ab (dr.automationCommand.getD "") with
          | .error _ => responseSection env s command
          | .ok ar =>
            if strTruthy ar ∧ (ar.getD "").startsWith "ASK_USER:" then
              handleSecurityQuestion (ar.getD "") command s
            else
              ({ success := true, response := ar,
                 sourceBrain := "DecisionBrain->AutomationBrain" }, s, [])
      else if dr.clarificationNeeded then
        ({ success := false, response := some "", sourceBrain := "DecisionBrain",
           requiresClarification := true,
           clarificationMessage := dr.clarificationMessage },
         { s with pendingDecisionClarification := some ⟨command, dr⟩ }, [])
      else responseSection env s command

/-- `_handle_decision_clarification` (lines 320-341): clear the pending
clarification first; re-prompt (storing a fresh pending clarification)
when the decision brain again asks for clarification; dispatch a
successful re-decision through the automation brain; in all remaining
cases fall back to processing `original_command + " " + answer` as a
fresh command.  A raising collaborator hits the local `except`, which
answers with the trouble message and leaves the pending clarification
cleared. -/
def handleDecisionClarification (env : Env) (s : CNSState) (userResponse : String) :
    CommandResult × CNSState × List Event :=
  let trouble : CommandResult :=
    { success := false,
      response := some "I had trouble understanding your clarification, Boss. Let's start over.",
      sourceBrain := "CNS_Error_Handler" }
  match s.pendingDecisionClarification with
  | none => (trouble, s, [])
  | some cc =>
    let s1 := { s with pendingDecisionClarification := none }
    let fresh := processCommandEnhanced env s1 (cc.originalCommand ++ " " ++ userResponse)
    match env.decisionBrain with
    | none => fresh
    | some db =>
      match db.2 cc.originalCommand userResponse with
      | .error _ => (trouble, s1, [])
      | .ok none => fresh
      | .ok (some r) =>
        if r.success then
          match env.automationBrain, strTruthy r.automationCommand with
          | some ab, true =>
            match ab (r.automationCommand.getD "") with
            | .error _ => (trouble, s1, [])
            | .ok ar =>
              if strTruthy ar then
                ({ success := true, response := ar,
                   sourceBrain := "DecisionBrain->AutomationBrain" }, s1, [])
              else fresh
          | _, _ => fresh
        else if r.clarificationNeeded then
          ({ success := false, response := some "", sourceBrain := "DecisionBrain",
             requiresClarification := true,
             clarificationMessage := r.clarificationMessage },
           { s1 with pendingDecisionClarification := some ⟨cc.originalCommand, r⟩ }, [])
        else fresh

/-- The recognised grant-permanent answers (line 353). -/
def yesAnswers : List String := ["yes", "y", "allow", "allow permanently", "permanently"]

/-- The recognised deny-permanent answers (line 357). -/
def noAnswers : List String := ["no", "n", "block", "deny", "never"]

/-- The recognised grant-once answers (line 360). -/
def onceAnswers : List String := ["this time only", "once", "just once", "temporary", "temp"]

/-- `_handle_security_response` (lines 343-375): classify the
lower-cased trimmed answer; grant/deny/grant-once update the security
lists (when the security brain is present) and clear the pending
question, the grant variants additionally opening the website (when the
automation brain is present); an unrecognised answer re-prompts without
touching any state. -/
def handleSecurityResponse (env : Env) (s : CNSState) (userAnswer : String) :
    String × CNSState × List Event :=
  match s.pendingSecurityQuestion with
  | none =>
    ("Boss, I had trouble processing your security decision: error",
     { s with pendingSecurityQuestion := none }, [])
  | some sq =>
    let answer := pyStrip (pyLower userAnswer)
    let url := sq.url
    let domain := if env.securityBrain then env.norm url else env.fallbackNetloc url
    if answer ∈ yesAnswers then
      let sec' := if env.securityBrain then addToTrusted env.norm env.valid s.sec domain
                  else s.sec
      let ev := (if env.securityBrain then [Event.addTrustedCall domain] else []) ++
        (if env.automationBrain.isSome then [Event.openWebsite url] else [])
      ("Understood, Boss. I've added '" ++ domain ++
         "' to the VIP list. Opening it now.",
       { s with pendingSecurityQuestion := none, sec := sec' }, ev)
    else if answer ∈ noAnswers then
      let sec' := if env.securityBrain then addToBlocked env.norm env.valid s.sec domain
                  else s.sec
      let ev := if env.securityBrain then [Event.addBlockedCall domain] else []
      ("Got it, Boss. I've added '" ++ domain ++
         "' to the blocklist. Access will be denied in the future.",
       { s with pendingSecurityQuestion := none, sec := sec' }, ev)
    else if answer ∈ onceAnswers then
      let sec' := if env.securityBrain then addToOneTime env.norm env.valid s.sec domain
                  else s.sec
      let ev := (if env.securityBrain then [Event.addOneTimeCall domain] else []) ++
        (if env.automationBrain.isSome then [Event.openWebsite url] else [])
      ("Okay, Boss. Granting one-time access to '" ++ domain ++ "'.",
       { s with pendingSecurityQuestion := none, sec := sec' }, ev)
    else
      ("I didn't understand that, Boss. Please answer with 'yes', 'no', or 'this time only'.",
       s, [])

/-- `handle_command` (lines 229-274): a pending security question takes
priority, then a pending decision clarification, then fresh command
processing.  Session statistics, logging, and printing are not
modelled. -/
def handleCommand (env : Env) (s : CNSState) (command : String) :
    CommandResult × CNSState × List Event :=
  if s.pendingSecurityQuestion.isSome then
    let r := handleSecurityResponse env s command
    ({ success := true, response := some r.1, sourceBrain := "SecurityBrain" },
     r.2.1, r.2.2)
  else if s.pendingDecisionClarification.isSome then
    handleDecisionClarification env s command
  else
    processCommandEnhanced env s command

/-- The coordinator state reached after a sequence of commands, each
handled against (possibly different) collaborator behaviour. -/
def runCommands (steps : List (Env × String)) (s : CNSState) : CNSState :=
  steps.foldl (fun st step => (handleCommand step.1 st step.2).2.1) s

/-! ### Helper lemmas -/

theorem boostMatch_intent (ctx : SessionContext) (m : IntentMatch) :
    (boostMatch ctx m).intent = m.intent := rfl

theorem boostMatch_matchedPattern (ctx : SessionContext) (m : IntentMatch) :
    (boostMatch ctx m).matchedPattern = m.matchedPattern := rfl

theorem boostMatch_primaryEntity (ctx : SessionContext) (m : IntentMatch) :
    (boostMatch ctx m).primaryEntity = m.primaryEntity := rfl

theorem capAdd_bounds {c d : ℚ} (hc : c ≤ 1) (hd : 0 ≤ d) :
    c ≤ min 1 (c + d) ∧ min 1 (c + d) ≤ 1 :=
  ⟨le_min hc (by linarith), min_le_left _ _⟩

/-- The two boosting rules only ever increase a confidence that starts
at most `1`, and keep it at most `1`. -/
theorem boostMatch_conf_bounds (ctx : SessionContext) (m : IntentMatch)
    (h : m.confidence ≤ 1) :
    m.confidence ≤ (boostMatch ctx m).confidence ∧ (boostMatch ctx m).confidence ≤ 1 := by
  unfold boostMatch
  dsimp only
  simp only [pymin_eq_min]
  split_ifs with h1 h2 h2
  · have s1 := capAdd_bounds (c := m.confidence) (d := 1/10) h (by norm_num)
    have s2 := capAdd_bounds (c := min 1 (m.confidence + 1/10)) (d := 1/20) s1.2 (by norm_num)
    exact ⟨le_trans s1.1 s2.1, s2.2⟩
  · exact capAdd_bounds h (by norm_num)
  · exact capAdd_bounds h (by norm_num)
  · exact ⟨le_refl _, h⟩

/-- Boosting adds at most `0.15` to a confidence. -/
theorem boostMatch_conf_le_add (ctx : SessionContext) (m : IntentMatch) :
    (boostMatch ctx m).confidence ≤ m.confidence + 3/20 := by
  unfold boostMatch
  dsimp only
  simp only [pymin_eq_min]
  have ha := min_le_right (1 : ℚ) (m.confidence + 1/10)
  have hb := min_le_right (1 : ℚ) (min 1 (m.confidence + 1/10) + 1/20)
  have hc := min_le_right (1 : ℚ) (m.confidence + 1/20)
  split_ifs <;> linarith

theorem nonneg_boostMatch (ctx : SessionContext) (m : IntentMatch)
    (h0 : 0 ≤ m.confidence) : 0 ≤ (boostMatch ctx m).confidence := by
  unfold boostMatch
  dsimp only
  simp only [pymin_eq_min]
  have s1 : (0:ℚ) ≤ min 1 (m.confidence + 1/10) := le_min (by norm_num) (by linarith)
  split_ifs
  · exact le_min (by norm_num) (by linarith)
  · exact le_min (by norm_num) (by linarith)
  · exact le_min (by norm_num) (by linarith)
  · exact h0

/-- A strictly-greater update step computes the maximum. -/
theorem ite_gt_eq_max (a b : ℚ) : (if b > a then b else a) = max a b := by
  rcases le_or_lt b a with h | h
  · simp [not_lt.mpr h, max_eq_left h]
  · simp [h, max_eq_right (le_of_lt h)]

/-- The scores of the patterns that match, in iteration order. -/
def scoresOf (pg : PatternGroup) (u : List Char) : List ℚ :=
  (allPats pg).filterMap fun p => (patternScore p.1 u p.2.2).map Prod.fst

theorem foldl_bestStep_conf (u : List Char) :
    ∀ (L : List (ℚ × String × RE)) (a : BestSoFar),
      (L.foldl (bestStep u) a).conf =
        (L.filterMap fun p => (patternScore p.1 u p.2.2).map Prod.fst).foldl max a.conf := by
  intro L
  induction L with
  | nil => intro a; rfl
  | cons p t ih =>
    intro a
    rcases hp : patternScore p.1 u p.2.2 with _ | ⟨pc, caps⟩
    · have h1 : List.filterMap (fun p => (patternScore p.1 u p.2.2).map Prod.fst) (p :: t)
          = List.filterMap (fun p => (patternScore p.1 u p.2.2).map Prod.fst) t := by
        rw [List.filterMap_cons, hp]
        rfl
      have h2 : bestStep u a p = a := by rw [bestStep, hp]
      rw [List.foldl_cons, h1, h2]
      exact ih a
    · have h1 : List.filterMap (fun p => (patternScore p.1 u p.2.2).map Prod.fst) (p :: t)
          = pc :: List.filterMap (fun p => (patternScore p.1 u p.2.2).map Prod.fst) t := by
        rw [List.filterMap_cons, hp]
        rfl
      have h2 : bestStep u a p = if pc > a.conf then (⟨pc, p.2.1, caps⟩ : BestSoFar) else a := by
        rw [bestStep, hp]
      rw [List.foldl_cons, h1, List.foldl_cons, h2]
      rcases lt_or_ge a.conf pc with hgt | hle
      · rw [if_pos hgt, ih]
        show _ = List.foldl max (max a.conf pc) _
        rw [max_eq_right (le_of_lt hgt)]
      · rw [if_neg (not_lt.mpr hle), ih]
        show _ = List.foldl max (max a.conf pc) _
        rw [max_eq_left hle]

/-- The fold keeping the strictly best (score, pattern) pair either
returns its accumulator or a pair whose score is realised by a matching
pattern in the list. -/
theorem foldl_bestStep_realised (u : List Char) :
    ∀ (L : List (ℚ × String × RE)) (a : BestSoFar),
      L.foldl (bestStep u) a = a ∨
        ∃ p ∈ L, ∃ caps, patternScore p.1 u p.2.2 = some ((L.foldl (bestStep u) a).conf, caps) ∧
          (L.foldl (bestStep u) a).pat = p.2.1 := by
  intro L
  induction L with
  | nil => intro a; exact Or.inl rfl
  | cons p t ih =>
    intro a
    rw [List.foldl_cons]
    have hstep : bestStep u a p = a ∨
        ∃ caps, patternScore p.1 u p.2.2 = some ((bestStep u a p).conf, caps) ∧
          (bestStep u a p).pat = p.2.1 := by
      rw [bestStep]
      rcases hp : patternScore p.1 u p.2.2 with _ | ⟨pc, caps⟩
      · exact Or.inl rfl
      · dsimp only
        split_ifs with hgt
        · exact Or.inr ⟨caps, rfl, rfl⟩
        · exact Or.inl rfl
    rcases ih (bestStep u a p) with h | ⟨q, hq, caps, hsc, hpat⟩
    · rw [h]
      rcases hstep with h2 | ⟨caps, hsc, hpat⟩
      · exact Or.inl h2
      · exact Or.inr ⟨p, List.mem_cons_self p t, caps, hsc, hpat⟩
    · exact Or.inr ⟨q, List.mem_cons_of_mem p hq, caps, hsc, hpat⟩

theorem le_foldl_max (a : ℚ) : ∀ L : List ℚ, a ≤ L.foldl max a := by
  intro L
  induction L generalizing a with
  | nil => exact le_refl a
  | cons x t ih => exact le_trans (le_max_left a x) (ih (max a x))

theorem mem_le_foldl_max {x : ℚ} (a : ℚ) :
    ∀ L : List ℚ, x ∈ L → x ≤ L.foldl max a := by
  intro L
  induction L generalizing a with
  | nil => intro h; cases h
  | cons y t ih =>
    intro h
    rcases List.mem_cons.mp h with rfl | h
    · exact le_trans (le_max_right a x) (le_foldl_max _ t)
    · exact ih (max a y) h

/-- A matched pattern scores at least its tier's base confidence. -/
theorem patternScore_ge_base {base : ℚ} {u : List Char} {e : RE} {pc : ℚ}
    {caps : List (List Char)} (h : patternScore base u e = some (pc, caps)) :
    base ≤ pc := by
  unfold patternScore at h
  rcases hs : reSearch e u with _ | ⟨i, len, cs⟩
  · rw [hs] at h; cases h
  · rw [hs] at h
    injection h with h1
    injection h1 with h1 h2
    subst h1
    have hb : (0:ℚ) ≤ (if i = 0 ∧ len = u.length then (1:ℚ)/10 else 0) := by
      split_ifs <;> norm_num
    have hr : (0:ℚ) ≤ ((len : ℚ) / (u.length : ℚ)) * (1/10) := by
      apply mul_nonneg
      · exact div_nonneg (Nat.cast_nonneg len) (Nat.cast_nonneg u.length)
      · norm_num
    linarith

theorem mem_allPats_base {pg : PatternGroup} {p : ℚ × String × RE}
    (h : p ∈ allPats pg) : p.1 = 9/10 ∨ p.1 = 6/10 ∨ p.1 = 3/10 := by
  unfold allPats tiersOf at h
  simp only [List.flatMap_cons, List.flatMap_nil, List.append_nil, List.mem_append,
    List.mem_map] at h
  rcases h with ⟨q, _, hq⟩ | ⟨q, _, hq⟩ | ⟨q, _, hq⟩ <;> rw [← hq]
  · exact Or.inl rfl
  · exact Or.inr (Or.inl rfl)
  · exact Or.inr (Or.inr rfl)

/-- Every score a pattern of the bank can produce is at least `0.3`. -/
theorem scoresOf_ge {pg : PatternGroup} {u : List Char} {x : ℚ}
    (h : x ∈ scoresOf pg u) : 3/10 ≤ x := by
  unfold scoresOf at h
  rcases List.mem_filterMap.mp h with ⟨p, hp, hx⟩
  rcases ho : patternScore p.1 u p.2.2 with _ | ⟨pc, caps⟩
  · rw [ho] at hx; cases hx
  · rw [ho] at hx
    injection hx with hx
    subst hx
    have hb := patternScore_ge_base ho
    show (3:ℚ)/10 ≤ pc
    rcases mem_allPats_base hp with h9 | h6 | h3
    · rw [h9] at hb; linarith
    · rw [h6] at hb; linarith
    · rw [h3] at hb; linarith

/-- Keys of an association list with nodup keys determine their values. -/
theorem assoc_key_unique {β : Type} :
    ∀ {l : List (String × β)}, (l.map Prod.fst).Nodup →
      ∀ {a : String} {b c : β}, (a, b) ∈ l → (a, c) ∈ l → b = c := by
  intro l
  induction l with
  | nil => intro _ a b c hb; cases hb
  | cons p t ih =>
    intro hnd a b c hb hc
    rw [List.map_cons, List.nodup_cons] at hnd
    rcases List.mem_cons.mp hb with h1 | h1
    · rcases List.mem_cons.mp hc with h2 | h2
      · exact congrArg Prod.snd (h1.trans h2.symm)
      · exfalso
        apply hnd.1
        rw [← h1]
        exact List.mem_map.mpr ⟨(a, c), h2, rfl⟩
    · rcases List.mem_cons.mp hc with h2 | h2
      · exfalso
        apply hnd.1
        rw [← h2]
        exact List.mem_map.mpr ⟨(a, b), h1, rfl⟩
      · exact ih hnd.2 h1 h2

theorem intentPatterns_keys_nodup : (intentPatterns.map Prod.fst).Nodup := by
  decide

theorem foldl_pickMax_spec :
    ∀ (t : List (String × Nat)) (acc : String × Nat),
      t.foldl (fun acc p => if p.2 > acc.2 then p else acc) acc ∈ acc :: t ∧
      acc.2 ≤ (t.foldl (fun acc p => if p.2 > acc.2 then p else acc) acc).2 ∧
      ∀ p ∈ t, p.2 ≤ (t.foldl (fun acc p => if p.2 > acc.2 then p else acc) acc).2 := by
  intro t
  induction t with
  | nil =>
    intro acc
    exact ⟨List.mem_cons_self _ _, le_refl _, fun p hp => absurd hp (List.not_mem_nil p)⟩
  | cons q t ih =>
    intro acc
    rw [List.foldl_cons]
    obtain ⟨hmem, hacc, hall⟩ := ih (if q.2 > acc.2 then q else acc)
    have hstep_acc : acc.2 ≤ (if q.2 > acc.2 then q else acc).2 := by
      split_ifs with hgt
      · exact le_of_lt hgt
      · exact le_refl _
    have hstep_q : q.2 ≤ (if q.2 > acc.2 then q else acc).2 := by
      split_ifs with hgt
      · exact le_refl _
      · exact not_lt.mp hgt
    refine ⟨?_, le_trans hstep_acc hacc, ?_⟩
    · rcases List.mem_cons.mp hmem with h | h
      · rw [h]
        split_ifs
        · exact List.mem_cons_of_mem _ (List.mem_cons_self _ _)
        · exact List.mem_cons_self _ _
      · exact List.mem_cons_of_mem _ (List.mem_cons_of_mem _ h)
    · intro p hp
      rcases List.mem_cons.mp hp with h | h
      · rw [h]; exact le_trans hstep_q hacc
      · exact hall p h

/-- `most_common(1)` really returns a key of maximal count. -/
theorem mostCommon1_spec {l : List (String × Nat)} {k : String}
    (h : mostCommon1 l = some k) :
    ∃ c, (k, c) ∈ l ∧ ∀ p ∈ l, p.2 ≤ c := by
  cases l with
  | nil => cases h
  | cons kc t =>
    unfold mostCommon1 at h
    injection h with h
    obtain ⟨hmem, hacc, hall⟩ := foldl_pickMax_spec t kc
    refine ⟨(t.foldl (fun acc p => if p.2 > acc.2 then p else acc) kc).2, ?_, ?_⟩
    · rw [← h]
      exact hmem
    · intro p hp
      rcases List.mem_cons.mp hp with hpe | hpt
      · rw [hpe]; exact hacc
      · exact hall p hpt

theorem rawEntry_eq_some {u : List Char} {ip : String × PatternGroup} {m : IntentMatch}
    (h : rawEntry u ip = some m) :
    m.intent = ip.1 ∧ m.confidence = pymin (bestForIntent ip.2 u).conf 1 ∧
    m.matchedPattern = (bestForIntent ip.2 u).pat ∧ 0 < (bestForIntent ip.2 u).conf := by
  simp only [rawEntry] at h
  split_ifs at h with hc
  injection h with h
  subst h
  exact ⟨rfl, rfl, rfl, hc⟩

theorem rawEntry_of_pos {u : List Char} {ip : String × PatternGroup}
    (hc : 0 < (bestForIntent ip.2 u).conf) :
    rawEntry u ip = some ⟨ip.1, pymin (bestForIntent ip.2 u).conf 1,
      (bestForIntent ip.2 u).pat,
      (bestForIntent ip.2 u).caps.head?.map fun g => pyStrip (String.mk g)⟩ := by
  unfold rawEntry
  rw [if_pos hc]

theorem bestForIntent_conf (pg : PatternGroup) (u : List Char) :
    (bestForIntent pg u).conf = (scoresOf pg u).foldl max 0 :=
  foldl_bestStep_conf u (allPats pg) ⟨0, "", []⟩

theorem scoresOf_pos_iff (pg : PatternGroup) (u : List Char) :
    0 < (scoresOf pg u).foldl max 0 ↔ scoresOf pg u ≠ [] := by
  constructor
  · intro h hnil
    rw [hnil] at h
    exact absurd h (lt_irrefl 0)
  · intro hne
    obtain ⟨x, hx⟩ := List.exists_mem_of_ne_nil _ hne
    have h1 := scoresOf_ge hx
    have h2 := mem_le_foldl_max 0 _ hx
    linarith

/-- At most one pending interrupt: a pending security question and a
pending decision clarification never coexist. -/
def AtMostOnePending (s : CNSState) : Prop :=
  s.pendingSecurityQuestion = none ∨ s.pendingDecisionClarification = none

theorem responseSection_amop (env : Env) (s : CNSState) (command : String)
    (h2 : s.pendingDecisionClarification = none) :
    AtMostOnePending (responseSection env s command).2.1 := by
  unfold responseSection handleSecurityQuestion
  repeat' split
  all_goals exact Or.inr h2

theorem processCommandEnhanced_amop (env : Env) (s : CNSState) (command : String)
    (h1 : s.pendingSecurityQuestion = none)
    (h2 : s.pendingDecisionClarification = none) :
    AtMostOnePending (processCommandEnhanced env s command).2.1 := by
  unfold processCommandEnhanced handleSecurityQuestion
  repeat' split
  all_goals
    first
      | exact Or.inr h2
      | exact Or.inl h1
      | exact responseSection_amop env s command h2

theorem handleDecisionClarification_amop (env : Env) (s : CNSState) (ans : String)
    (h1 : s.pendingSecurityQuestion = none) :
    AtMostOnePending (handleDecisionClarification env s ans).2.1 := by
  unfold handleDecisionClarification
  repeat' split
  all_goals
    first
      | exact Or.inl h1
      | exact processCommandEnhanced_amop env _ _ h1 rfl

theorem handleSecurityResponse_amop (env : Env) (s : CNSState) (ans : String)
    (h : AtMostOnePending s) :
    AtMostOnePending (handleSecurityResponse env s ans).2.1 := by
  simp only [handleSecurityResponse]
  repeat' split
  all_goals first | exact Or.inl rfl | exact h

theorem handleCommand_amop (env : Env) (s : CNSState) (command : String)
    (h : AtMostOnePending s) :
    AtMostOnePending (handleCommand env s command).2.1 := by
  unfold handleCommand
  split_ifs with hs hc
  · exact handleSecurityResponse_amop env s command h
  · exact handleDecisionClarification_amop env s command
      (Option.not_isSome_iff_eq_none.mp hs)
  · exact processCommandEnhanced_amop env s command
      (Option.not_isSome_iff_eq_none.mp hs)
      (Option.not_isSome_iff_eq_none.mp hc)

/-- The recognised deny answers are not grant answers. -/
theorem noAnswers_not_yes : ∀ x ∈ noAnswers, x ∉ yesAnswers := by decide

/-! ### The claims -/

/-- C2: for every utterance and every intent of the pattern bank, the
resolver's pre-boost output contains the intent exactly when some of
its patterns matches the lower-cased trimmed utterance (every match
scores at least its positive tier base, so "score > 0" is equivalent);
the kept confidence is the maximum over all matched (tier, pattern)
pairs of `base + (0.1 if the match spans the whole utterance) + 0.1 *
matched-span/utterance-length` (the `patternScore` formula), capped at
`1`, with no accumulation across tiers; and the kept `matched_pattern`
is itself a pattern of the intent realising that maximal score. -/
theorem c2_tiered_scoring_max_per_intent (command : String) (intent : String)
    (pg : PatternGroup) (hip : (intent, pg) ∈ intentPatterns) :
    ((∃ m ∈ determineIntentRaw command, m.intent = intent) ↔
      scoresOf pg ((pyStrip (pyLower command)).data) ≠ []) ∧
    (∀ m ∈ determineIntentRaw command, m.intent = intent →
      m.confidence =
        pymin ((scoresOf pg ((pyStrip (pyLower command)).data)).foldl max 0) 1 ∧
      ∃ p ∈ allPats pg, ∃ caps,
        patternScore p.1 ((pyStrip (pyLower command)).data) p.2.2 =
          some ((scoresOf pg ((pyStrip (pyLower command)).data)).foldl max 0, caps) ∧
        m.matchedPattern = p.2.1) := by
  set u := (pyStrip (pyLower command)).data with hu
  have hmem : ∀ m : IntentMatch, m ∈ determineIntentRaw command ↔
      m ∈ intentPatterns.filterMap (rawEntry u) := by
    intro m
    unfold determineIntentRaw
    rw [← hu]
    exact List.mem_insertionSort confGE
  have hproduced : ∀ m : IntentMatch, m ∈ determineIntentRaw command → m.intent = intent →
      rawEntry u (intent, pg) = some m := by
    intro m hm hmi
    rcases List.mem_filterMap.mp ((hmem m).mp hm) with ⟨ip, hipmem, hraw⟩
    obtain ⟨i1, i2⟩ := ip
    obtain ⟨hint, _, _, _⟩ := rawEntry_eq_some hraw
    have h1 : i1 = m.intent := (hint.symm : ((i1, i2) : String × PatternGroup).1 = m.intent)
    have hkey : i1 = intent := by rw [h1, hmi]
    subst hkey
    have hpg : i2 = pg := assoc_key_unique intentPatterns_keys_nodup hipmem hip
    subst hpg
    exact hraw
  constructor
  · constructor
    · rintro ⟨m, hm, hmi⟩
      obtain ⟨_, _, _, hpos⟩ := rawEntry_eq_some (hproduced m hm hmi)
      rw [bestForIntent_conf] at hpos
      exact (scoresOf_pos_iff pg u).mp hpos
    · intro hne
      have hpos : 0 < (bestForIntent pg u).conf := by
        rw [bestForIntent_conf]
        exact (scoresOf_pos_iff pg u).mpr hne
      exact ⟨_, (hmem _).mpr
        (List.mem_filterMap.mpr ⟨(intent, pg), hip, rawEntry_of_pos hpos⟩), rfl⟩
  · intro m hm hmi
    obtain ⟨hint, hconf, hpat, hpos⟩ := rawEntry_eq_some (hproduced m hm hmi)
    refine ⟨by rw [hconf, bestForIntent_conf], ?_⟩
    rcases foldl_bestStep_realised u (allPats pg) ⟨0, "", []⟩ with hid | ⟨p, hp, caps, hsc, hpat2⟩
    · exfalso
      have hz : (bestForIntent pg u).conf = 0 := by
        unfold bestForIntent
        rw [hid]
      rw [hz] at hpos
      exact absurd hpos (lt_irrefl 0)
    · refine ⟨p, hp, caps, ?_, ?_⟩
      · rw [← bestForIntent_conf]
        exact hsc
      · rw [hpat]
        exact hpat2

theorem c2_tiered_scoring_max_per_intent_witness :
    (∃ m ∈ determineIntentRaw "play something", m.intent = "play_music") ∧
    ∀ m ∈ determineIntentRaw "play something", m.intent = "play_music" →
      m.confidence =
        pymin ((scoresOf pgPlayMusic ((pyStrip (pyLower "play something")).data)).foldl max 0) 1 := by
  have h := c2_tiered_scoring_max_per_intent "play something" "play_music" pgPlayMusic
    (List.mem_cons_of_mem _ (List.mem_cons_self _ _))
  refine ⟨h.1.mpr (by decide), fun m hm hmi => (h.2 m hm hmi).1⟩

/-- Every pre-boost match has confidence in `(0, 1]`. -/
theorem determineIntentRaw_conf_bounds {command : String} {m : IntentMatch}
    (hm : m ∈ determineIntentRaw command) : 0 < m.confidence ∧ m.confidence ≤ 1 := by
  unfold determineIntentRaw at hm
  rw [List.mem_insertionSort] at hm
  rcases List.mem_filterMap.mp hm with ⟨ip, _, hraw⟩
  obtain ⟨_, hconf, _, hpos⟩ := rawEntry_eq_some hraw
  rw [hconf, pymin_eq_min]
  exact ⟨lt_min hpos one_pos, min_le_right _ _⟩

/-- C8: for every utterance and session context the resolver's output
is sorted non-increasing by confidence, every confidence lies in
`[0, 1]`, and the final sort is stable: two matches of equal confidence
appear in the output in the order in which the boosted list presents
them. -/
theorem c8_resolver_sorted_bounded_stable (ctx : SessionContext) (command : String) :
    List.Sorted (fun a b : IntentMatch => b.confidence ≤ a.confidence)
      (determineIntent ctx command) ∧
    (∀ m ∈ determineIntent ctx command, 0 ≤ m.confidence ∧ m.confidence ≤ 1) ∧
    (∀ a b : IntentMatch, a.confidence = b.confidence →
      List.Sublist [a, b] ((determineIntentRaw command).map (boostMatch ctx)) →
      List.Sublist [a, b] (determineIntent ctx command)) := by
  refine ⟨?_, ?_, ?_⟩
  · exact List.sorted_insertionSort confGE _
  · intro m hm
    unfold determineIntent applyContextBoosting at hm
    rw [List.mem_insertionSort] at hm
    rcases List.mem_map.mp hm with ⟨m', hm', hme⟩
    obtain ⟨h0, h1⟩ := determineIntentRaw_conf_bounds hm'
    rw [← hme]
    exact ⟨nonneg_boostMatch ctx m' (le_of_lt h0),
      (boostMatch_conf_bounds ctx m' h1).2⟩
  · intro a b heq hsub
    have hr : confGE a b := le_of_eq heq.symm
    exact List.pair_sublist_insertionSort hr hsub

theorem c8_resolver_sorted_bounded_stable_witness :
    List.Sublist
      [(⟨"system_check", 19/55, "check", none⟩ : IntentMatch),
       ⟨"communication", 19/55, "email", none⟩]
      (determineIntent ⟨none, "afternoon"⟩ "check email") := by
  have hmap : (determineIntentRaw "check email").map (boostMatch ⟨none, "afternoon"⟩) =
      [(⟨"system_check", 19/55, "check", none⟩ : IntentMatch),
       ⟨"communication", 19/55, "email", none⟩] := by
    decide
  exact (c8_resolver_sorted_bounded_stable ⟨none, "afternoon"⟩ "check email").2.2
    ⟨"system_check", 19/55, "check", none⟩ ⟨"communication", 19/55, "email", none⟩
    rfl (hmap ▸ List.Sublist.refl _)

/-- C6: whenever the best boosted match falls strictly below the
configured confidence threshold, `make_decision` returns a non-success
result with `clarification_needed`, echoing the best match's intent,
listing the intents of the first `max_alternatives` candidates (so at
most that many) as alternatives; in particular "play something", which
matches only `play_music`'s low tier, yields a clarification with
intent `play_music` under the default configuration for every session
context and learning store. -/
theorem c6_below_threshold_clarifies :
    (∀ (cfg : DecisionConfig) (ctx : SessionContext) (prefs : Prefs) (command : String)
      (best : IntentMatch) (rest : List IntentMatch),
      pyStrip command ≠ "" →
      determineIntent ctx command = best :: rest →
      best.confidence < cfg.confidenceThreshold →
      makeDecision cfg ctx prefs command = some
        { success := false, intent := some best.intent, confidence := best.confidence,
          clarificationNeeded := true,
          clarificationMessage := some
            ("CLARIFY:I'm not entirely sure, Boss. Did you mean: " ++
              String.intercalate ", "
                (((best :: rest).take cfg.maxAlternatives).map IntentMatch.intent) ++ "?"),
          alternatives :=
            some (((best :: rest).take cfg.maxAlternatives).map IntentMatch.intent) } ∧
      (((best :: rest).take cfg.maxAlternatives).map IntentMatch.intent).length ≤
        cfg.maxAlternatives) ∧
    (∀ (ctx : SessionContext) (prefs : Prefs), ∃ r,
      makeDecision {} ctx prefs "play something" = some r ∧
      r.success = false ∧ r.clarificationNeeded = true ∧ r.intent = some "play_music") := by
  have huniv : ∀ (cfg : DecisionConfig) (ctx : SessionContext) (prefs : Prefs)
      (command : String) (best : IntentMatch) (rest : List IntentMatch),
      pyStrip command ≠ "" →
      determineIntent ctx command = best :: rest →
      best.confidence < cfg.confidenceThreshold →
      makeDecision cfg ctx prefs command = some
        { success := false, intent := some best.intent, confidence := best.confidence,
          clarificationNeeded := true,
          clarificationMessage := some
            ("CLARIFY:I'm not entirely sure, Boss. Did you mean: " ++
              String.intercalate ", "
                (((best :: rest).take cfg.maxAlternatives).map IntentMatch.intent) ++ "?"),
          alternatives :=
            some (((best :: rest).take cfg.maxAlternatives).map IntentMatch.intent) } := by
    intro cfg ctx prefs command best rest hne hmatch hconf
    simp only [makeDecision, hmatch]
    rw [if_neg hne, if_pos hconf]
  refine ⟨fun cfg ctx prefs command best rest hne hmatch hconf =>
    ⟨huniv cfg ctx prefs command best rest hne hmatch hconf, ?_⟩, ?_⟩
  · rw [List.length_map, List.length_take]
    exact min_le_left _ _
  · intro ctx prefs
    have hraw : determineIntentRaw "play something" =
        [⟨"play_music", 23/70, "play", none⟩] := by decide
    have hdet : determineIntent ctx "play something" =
        [boostMatch ctx ⟨"play_music", 23/70, "play", none⟩] := by
      unfold determineIntent applyContextBoosting
      rw [hraw]
      rfl
    have hconf : (boostMatch ctx ⟨"play_music", 23/70, "play", none⟩).confidence <
        (({} : DecisionConfig)).confidenceThreshold := by
      have h := boostMatch_conf_le_add ctx ⟨"play_music", 23/70, "play", none⟩
      show (boostMatch ctx ⟨"play_music", 23/70, "play", none⟩).confidence < 7/10
      calc (boostMatch ctx ⟨"play_music", 23/70, "play", none⟩).confidence
          ≤ 23/70 + 3/20 := h
        _ < 7/10 := by norm_num
    refine ⟨_, huniv {} ctx prefs "play something"
      (boostMatch ctx ⟨"play_music", 23/70, "play", none⟩) [] (by decide) hdet hconf,
      rfl, rfl, rfl⟩

theorem c6_below_threshold_clarifies_witness :
    ∃ r, makeDecision {} ⟨none, "night"⟩ [] "play something" = some r ∧
      r.success = false ∧ r.clarificationNeeded = true ∧ r.intent = some "play_music" :=
  c6_below_threshold_clarifies.2 ⟨none, "night"⟩ []

/-- C1: at most one pending interrupt is ever outstanding.  Along any
sequence of commands handled against arbitrary collaborator behaviour,
a state with at most one pending interrupt never acquires a second
one; and while an interrupt is pending, `handle_command` routes the
incoming text to that interrupt's resolution handler (the security
handler first, else the clarification handler) rather than into fresh
command processing. -/
theorem c1_at_most_one_pending_interrupt (steps : List (Env × String)) (s : CNSState)
    (h : AtMostOnePending s) :
    AtMostOnePending (runCommands steps s) ∧
    (∀ (env : Env) (command : String), s.pendingSecurityQuestion.isSome →
      handleCommand env s command =
        ({ success := true, response := some (handleSecurityResponse env s command).1,
           sourceBrain := "SecurityBrain" },
         (handleSecurityResponse env s command).2.1,
         (handleSecurityResponse env s command).2.2)) ∧
    (∀ (env : Env) (command : String), s.pendingSecurityQuestion = none →
      s.pendingDecisionClarification.isSome →
      handleCommand env s command = handleDecisionClarification env s command) := by
  refine ⟨?_, ?_, ?_⟩
  · induction steps generalizing s with
    | nil => exact h
    | cons step t ih =>
      rw [runCommands, List.foldl_cons]
      exact ih _ (handleCommand_amop step.1 s step.2 h)
  · intro env command hs
    unfold handleCommand
    rw [if_pos hs]
  · intro env command hs hc
    unfold handleCommand
    rw [if_neg, if_pos hc]
    rw [hs]
    simp

theorem c1_at_most_one_pending_interrupt_witness :
    AtMostOnePending (runCommands
      [(⟨none, none, none, true, id, fun _ => true, id⟩, "no")]
      ⟨some ⟨"q", "u.com", "open u.com"⟩, none, ⟨∅, ∅, ∅⟩⟩) ∧
    handleCommand (⟨none, none, none, true, id, fun _ => true, id⟩ : Env)
        (⟨some ⟨"q", "u.com", "open u.com"⟩, none, ⟨∅, ∅, ∅⟩⟩ : CNSState) "hello" =
      ({ success := true,
         response := some (handleSecurityResponse
           ⟨none, none, none, true, id, fun _ => true, id⟩
           ⟨some ⟨"q", "u.com", "open u.com"⟩, none, ⟨∅, ∅, ∅⟩⟩ "hello").1,
         sourceBrain := "SecurityBrain" },
       (handleSecurityResponse ⟨none, none, none, true, id, fun _ => true, id⟩
         ⟨some ⟨"q", "u.com", "open u.com"⟩, none, ⟨∅, ∅, ∅⟩⟩ "hello").2.1,
       (handleSecurityResponse ⟨none, none, none, true, id, fun _ => true, id⟩
         ⟨some ⟨"q", "u.com", "open u.com"⟩, none, ⟨∅, ∅, ∅⟩⟩ "hello").2.2) :=
  ⟨(c1_at_most_one_pending_interrupt
      [(⟨none, none, none, true, id, fun _ => true, id⟩, "no")]
      ⟨some ⟨"q", "u.com", "open u.com"⟩, none, ⟨∅, ∅, ∅⟩⟩ (Or.inr rfl)).1,
   (c1_at_most_one_pending_interrupt []
      ⟨some ⟨"q", "u.com", "open u.com"⟩, none, ⟨∅, ∅, ∅⟩⟩ (Or.inr rfl)).2.1
     ⟨none, none, none, true, id, fun _ => true, id⟩ "hello" rfl⟩

/-- C7: while a security confirmation is pending, a deny answer causes
exactly one `add_to_blocked` call for the (normalised) denied domain —
which, for a valid domain, puts it on the blocklist — clears the
pending question (returning the coordinator to the idle state) and
opens no website; an unrecognised answer re-prompts and leaves the
entire state, pending question and security lists included,
unchanged. -/
theorem c7_security_deny_and_reprompt (env : Env) (s : CNSState) (sq : SecurityQuestion)
    (hsec : env.securityBrain = true)
    (hsq : s.pendingSecurityQuestion = some sq)
    (hclar : s.pendingDecisionClarification = none) :
    (∀ ans, pyStrip (pyLower ans) ∈ noAnswers →
      (handleCommand env s ans).2.2 = [Event.addBlockedCall (env.norm sq.url)] ∧
      (∀ u, Event.openWebsite u ∉ (handleCommand env s ans).2.2) ∧
      (handleCommand env s ans).2.1.pendingSecurityQuestion = none ∧
      (handleCommand env s ans).2.1.pendingDecisionClarification = none ∧
      (handleCommand env s ans).2.1.sec =
        addToBlocked env.norm env.valid s.sec (env.norm sq.url) ∧
      (env.valid (env.norm (env.norm sq.url)) = true →
        env.norm (env.norm sq.url) ∈ (handleCommand env s ans).2.1.sec.blocked)) ∧
    (∀ ans, pyStrip (pyLower ans) ∉ yesAnswers → pyStrip (pyLower ans) ∉ noAnswers →
      pyStrip (pyLower ans) ∉ onceAnswers →
      handleCommand env s ans =
        ({ success := true,
           response := some "I didn't understand that, Boss. Please answer with 'yes', 'no', or 'this time only'.",
           sourceBrain := "SecurityBrain" }, s, [])) := by
  have hroute : ∀ ans, handleCommand env s ans =
      ({ success := true, response := some (handleSecurityResponse env s ans).1,
         sourceBrain := "SecurityBrain" },
       (handleSecurityResponse env s ans).2.1, (handleSecurityResponse env s ans).2.2) := by
    intro ans
    unfold handleCommand
    rw [if_pos (by rw [hsq]; rfl)]
  constructor
  · intro ans hno
    have hhsr : handleSecurityResponse env s ans =
        ("Got it, Boss. I've added '" ++ env.norm sq.url ++
           "' to the blocklist. Access will be denied in the future.",
         { s with pendingSecurityQuestion := none,
                  sec := addToBlocked env.norm env.valid s.sec (env.norm sq.url) },
         [Event.addBlockedCall (env.norm sq.url)]) := by
      simp only [handleSecurityResponse, hsq, hsec, if_true]
      rw [if_neg (noAnswers_not_yes _ hno), if_pos hno]
    rw [hroute ans, hhsr]
    refine ⟨rfl, ?_, rfl, hclar, rfl, ?_⟩
    · intro u hu
      rcases List.mem_cons.mp hu with h | h
      · cases h
      · cases h
    · intro hval
      show env.norm (env.norm sq.url) ∈
        (addToBlocked env.norm env.valid s.sec (env.norm sq.url)).blocked
      unfold addToBlocked
      rw [if_pos hval]
      exact Finset.mem_insert_self _ _
  · intro ans hy hn ho
    have hhsr : handleSecurityResponse env s ans =
        ("I didn't understand that, Boss. Please answer with 'yes', 'no', or 'this time only'.",
         s, []) := by
      simp only [handleSecurityResponse, hsq, hsec, if_true]
      rw [if_neg hy, if_neg hn, if_neg ho]
    rw [hroute ans, hhsr]

theorem c7_security_deny_and_reprompt_witness :
    (handleCommand (⟨none, none, none, true, id, fun _ => true, id⟩ : Env)
        (⟨some ⟨"q", "u.com", "open u.com"⟩, none, ⟨∅, ∅, ∅⟩⟩ : CNSState) "no").2.2 =
      [Event.addBlockedCall "u.com"] ∧
    handleCommand (⟨none, none, none, true, id, fun _ => true, id⟩ : Env)
        (⟨some ⟨"q", "u.com", "open u.com"⟩, none, ⟨∅, ∅, ∅⟩⟩ : CNSState) "maybe" =
      ({ success := true,
         response := some "I didn't understand that, Boss. Please answer with 'yes', 'no', or 'this time only'.",
         sourceBrain := "SecurityBrain" },
       ⟨some ⟨"q", "u.com", "open u.com"⟩, none, ⟨∅, ∅, ∅⟩⟩, []) := by
  have h := c7_security_deny_and_reprompt
    ⟨none, none, none, true, id, fun _ => true, id⟩
    ⟨some ⟨"q", "u.com", "open u.com"⟩, none, ⟨∅, ∅, ∅⟩⟩
    ⟨"q", "u.com", "open u.com"⟩ rfl rfl rfl
  exact ⟨(h.1 "no" (by decide)).1, h.2 "maybe" (by decide) (by decide) (by decide)⟩

/-- C9: context boosting is monotonic — for every list of matches and
every session context, each match's boosted counterpart is in the
booster's output, its confidence is at least the pre-boost confidence,
and it stays at most `1` (each rule adds its bonus capped at `1`). -/
theorem c9_context_boosting_monotonic (ctx : SessionContext) (l : List IntentMatch)
    (m : IntentMatch) (hm : m ∈ l) (h1 : m.confidence ≤ 1) :
    boostMatch ctx m ∈ applyContextBoosting ctx l ∧
    m.confidence ≤ (boostMatch ctx m).confidence ∧
    (boostMatch ctx m).confidence ≤ 1 := by
  refine ⟨?_, (boostMatch_conf_bounds ctx m h1).1, (boostMatch_conf_bounds ctx m h1).2⟩
  unfold applyContextBoosting
  rw [List.mem_insertionSort]
  exact List.mem_map_of_mem _ hm

theorem c9_context_boosting_monotonic_witness :
    boostMatch ⟨some "news_update", "morning"⟩ ⟨"news_update", 1/2, "news", none⟩ ∈
      applyContextBoosting ⟨some "news_update", "morning"⟩
        [⟨"news_update", 1/2, "news", none⟩] ∧
    (1:ℚ)/2 ≤ (boostMatch ⟨some "news_update", "morning"⟩
      ⟨"news_update", 1/2, "news", none⟩).confidence ∧
    (boostMatch ⟨some "news_update", "morning"⟩
      ⟨"news_update", 1/2, "news", none⟩).confidence ≤ 1 :=
  c9_context_boosting_monotonic ⟨some "news_update", "morning"⟩
    [⟨"news_update", 1/2, "news", none⟩] ⟨"news_update", 1/2, "news", none⟩
    (List.mem_cons_self _ _) (by norm_num)

/-- C3 counterexample: context boosting is not pure over a copy — the
source adjusts `match.confidence` in place and sorts the caller's list
in place (returning that same list object), so after the call the
caller's list contents differ from what was passed in.  Concretely, a
`news_update` match of confidence `0.5` under a session whose last
intent is `news_update` is boosted to `0.6` inside the caller's own
list. -/
theorem c3_boosting_counterexample :
    applyContextBoosting ⟨some "news_update", "afternoon"⟩
        [⟨"news_update", 1/2, "news", none⟩] ≠
      [⟨"news_update", 1/2, "news", none⟩] := by
  have hb : applyContextBoosting ⟨some "news_update", "afternoon"⟩
      [⟨"news_update", 1/2, "news", none⟩] =
      [⟨"news_update", 3/5, "news", none⟩] := by
    show List.insertionSort confGE
        [boostMatch ⟨some "news_update", "afternoon"⟩ ⟨"news_update", 1/2, "news", none⟩] = _
    have : boostMatch ⟨some "news_update", "afternoon"⟩ ⟨"news_update", 1/2, "news", none⟩ =
        ⟨"news_update", 3/5, "news", none⟩ := by
      decide
    rw [this]
    rfl
  rw [hb]
  intro h
  have := congrArg (fun l => (l.headD ⟨"", 0, "", none⟩).confidence) h
  norm_num at this

/-- C3 (amended): the booster changes only the `confidence` field — the
list the caller sees after the call consists exactly of the boosted
copies of its inputs (re-sorted), each agreeing with an input match on
intent, matched pattern and entities — but it does mutate and return
the caller's own matches and list rather than fresh copies. -/
theorem c3_boosting_confidence_only (ctx : SessionContext) (l : List IntentMatch) :
    (∀ m ∈ applyContextBoosting ctx l, ∃ m' ∈ l, m = boostMatch ctx m' ∧
       m.intent = m'.intent ∧ m.matchedPattern = m'.matchedPattern ∧
       m.primaryEntity = m'.primaryEntity) ∧
    (∀ m' ∈ l, boostMatch ctx m' ∈ applyContextBoosting ctx l) := by
  constructor
  · intro m hm
    unfold applyContextBoosting at hm
    rw [List.mem_insertionSort] at hm
    rcases List.mem_map.mp hm with ⟨m', hm', hme⟩
    exact ⟨m', hm', hme.symm, by rw [← hme]; rfl, by rw [← hme]; rfl, by rw [← hme]; rfl⟩
  · intro m' hm'
    unfold applyContextBoosting
    rw [List.mem_insertionSort]
    exact List.mem_map_of_mem _ hm'

theorem c3_boosting_confidence_only_witness :
    boostMatch ⟨some "news_update", "afternoon"⟩ ⟨"news_update", 1/2, "news", none⟩ ∈
      applyContextBoosting ⟨some "news_update", "afternoon"⟩
        [⟨"news_update", 1/2, "news", none⟩] :=
  (c3_boosting_confidence_only ⟨some "news_update", "afternoon"⟩
      [⟨"news_update", 1/2, "news", none⟩]).2
    ⟨"news_update", 1/2, "news", none⟩ (List.mem_cons_self _ _)

/-- One security-list operation preserves disjointness of the trusted
and blocked lists. -/
theorem applySecOp_disjoint (norm : String → String) (valid : String → Bool)
    (sec : SecLists) (op : SecOp) (h : ∀ x ∈ sec.trusted, x ∉ sec.blocked) :
    ∀ x ∈ (applySecOp norm valid sec op).trusted, x ∉ (applySecOp norm valid sec op).blocked := by
  cases op with
  | addTrusted d =>
    simp only [applySecOp]
    simp only [addToTrusted]
    split_ifs
    · intro x hx hb
      rcases Finset.mem_insert.mp hx with rfl | hx
      · exact (Finset.mem_erase.mp hb).1 rfl
      · exact h x hx (Finset.mem_of_mem_erase hb)
    · exact h
  | addBlocked d =>
    simp only [applySecOp]
    simp only [addToBlocked]
    split_ifs
    · intro x hx hb
      obtain ⟨hne, hx⟩ := Finset.mem_erase.mp hx
      rcases Finset.mem_insert.mp hb with rfl | hb
      · exact hne rfl
      · exact h x hx hb
    · exact h
  | addOneTime d =>
    simp only [applySecOp]
    simp only [addToOneTime]
    split_ifs
    · exact h
    · exact h
  | remTrusted d =>
    simp only [applySecOp]
    simp only [removeFromTrusted]
    intro x hx hb
    exact h x (Finset.mem_of_mem_erase hx) hb
  | remBlocked d =>
    simp only [applySecOp]
    simp only [removeFromBlocked]
    intro x hx hb
    exact h x hx (Finset.mem_of_mem_erase hb)
  | clearOnce =>
    simp only [applySecOp]
    simp only [clearOneTime]
    exact h

/-- C10: starting from trusted and blocked lists that share no domain,
no sequence of `add_to_trusted`, `add_to_blocked`, `add_to_one_time`,
`remove_from_trusted`, `remove_from_blocked` or
`clear_one_time_sessions` calls can ever put a domain on both lists:
trusting discards from the blocked list and blocking discards from the
trusted list.  The statement quantifies over any domain normaliser and
validator, so it covers the source's `extract_domain` and
`is_valid_domain`. -/
theorem c10_trusted_blocked_stay_disjoint (norm : String → String) (valid : String → Bool)
    (ops : List SecOp) (sec : SecLists) (h : ∀ x ∈ sec.trusted, x ∉ sec.blocked) :
    ∀ x ∈ (applySecOps norm valid sec ops).trusted,
      x ∉ (applySecOps norm valid sec ops).blocked := by
  induction ops generalizing sec with
  | nil => exact h
  | cons op t ih =>
    rw [applySecOps, List.foldl_cons]
    exact ih (applySecOp norm valid sec op) (applySecOp_disjoint norm valid sec op h)

theorem c10_trusted_blocked_stay_disjoint_witness :
    "a.com" ∉ (applySecOps id (fun _ => true) ⟨∅, ∅, ∅⟩
      [.addTrusted "a.com", .addBlocked "a.com", .addOneTime "b.com",
       .addTrusted "a.com"]).blocked :=
  c10_trusted_blocked_stay_disjoint id (fun _ => true)
    [.addTrusted "a.com", .addBlocked "a.com", .addOneTime "b.com",
     .addTrusted "a.com"] ⟨∅, ∅, ∅⟩
    (by intro x hx _; exact absurd hx (Finset.not_mem_empty x))
    "a.com" (by decide)

/-- C4: the action-determination step returns the single action of a
one-action knowledge-base entry directly (never a clarification), and
for an entry with several actions that is not context sensitive it
refuses to pick, returning a clarification whose alternatives are all
of the entry's actions. -/
theorem c4_single_action_never_clarifies (prefs : Prefs) (params : List (String × String))
    (intent : String) (entry : KBEntry) (h : kbFind intent = some entry) :
    (∀ a, entry.actions = [a] → decideAction prefs intent params = .act a) ∧
    (1 < entry.actions.length → entry.contextSensitive = false →
      decideAction prefs intent params =
        .clarify (createEnhancedClarification intent entry.actions params) entry.actions) := by
  constructor
  · intro a ha
    simp only [decideAction, h, ha]
    simp
  · intro hlen hcs
    cases hact : entry.actions with
    | nil => rw [hact] at hlen; simp at hlen
    | cons a0 rest =>
      cases rest with
      | nil => rw [hact] at hlen; simp at hlen
      | cons a1 rest' =>
        simp only [decideAction, h, hact, hcs]
        simp

theorem c4_single_action_never_clarifies_witness :
    decideAction [] "open_website" [] = .act "open_website" ∧
    decideAction [] "search_web" [] =
      .clarify (createEnhancedClarification "search_web" ["search_google", "search_bing"] [])
        ["search_google", "search_bing"] := by
  constructor
  · exact (c4_single_action_never_clarifies [] [] "open_website"
      ⟨["open_website"], ["open_website"], false, true⟩ (by decide)).1 "open_website" rfl
  · exact (c4_single_action_never_clarifies [] [] "search_web"
      ⟨["search_google", "search_bing"], ["search_google"], false, true⟩ (by decide)).2
      (by decide) rfl

/-- C5: for a multi-action context-sensitive entry the step commits to
`_select_best_action`'s choice, which is the head of the entry's
priority list unless the learning store holds preferences for the
intent whose single most frequent recorded entry (maximal count, first
in insertion order on ties) is one of the entry's actions, in which
case that entry wins; the choice is a function of the store, hence
deterministic. -/
theorem c5_context_sensitive_pick (prefs : Prefs) (params : List (String × String))
    (intent : String) (entry : KBEntry) (h : kbFind intent = some entry)
    (hlen : 1 < entry.actions.length) (hcs : entry.contextSensitive = true) :
    decideAction prefs intent params = .act (selectBestAction intent prefs entry) ∧
    (prefsFor prefs intent = [] →
      selectBestAction intent prefs entry = entry.priority.headD "") ∧
    (∀ mc, mostCommon1 (prefsFor prefs intent) = some mc →
      (mc ∈ entry.actions → selectBestAction intent prefs entry = mc) ∧
      (mc ∉ entry.actions → selectBestAction intent prefs entry = entry.priority.headD "") ∧
      ∃ c, (mc, c) ∈ prefsFor prefs intent ∧ ∀ p ∈ prefsFor prefs intent, p.2 ≤ c) := by
  refine ⟨?_, ?_, ?_⟩
  · cases hact : entry.actions with
    | nil => rw [hact] at hlen; simp at hlen
    | cons a0 rest =>
      cases rest with
      | nil => rw [hact] at hlen; simp at hlen
      | cons a1 rest' =>
        simp only [decideAction, h, hact, hcs]
        simp
  · intro hp
    simp only [selectBestAction, hp]
  · intro mc hmc
    refine ⟨?_, ?_, mostCommon1_spec hmc⟩
    · intro hin
      cases hp : prefsFor prefs intent with
      | nil => rw [hp] at hmc; cases hmc
      | cons kc t =>
        rw [hp] at hmc
        simp only [selectBestAction, hp, hmc]
        exact if_pos hin
    · intro hout
      cases hp : prefsFor prefs intent with
      | nil => rw [hp] at hmc; cases hmc
      | cons kc t =>
        rw [hp] at hmc
        simp only [selectBestAction, hp, hmc]
        exact if_neg hout

theorem c5_context_sensitive_pick_witness :
    decideAction [("play_music", [("open spotify please", 2), ("search_youtube_music", 5)])]
        "play_music" [] = .act "search_youtube_music" := by
  have h := (c5_context_sensitive_pick
    [("play_music", [("open spotify please", 2), ("search_youtube_music", 5)])] []
    "play_music" ⟨["open_spotify", "search_youtube_music"], ["open_spotify"], true, false⟩
    (by decide) (by decide) rfl)
  rw [h.1, ((h.2.2 "search_youtube_music" (by decide)).1 (by decide))]

end Zia
